import Mathlib

/-!
# Verification of the Personal Expense Tracker

Shallow embedding of `src/Personal_Expense_Tracker.py`.

Modelling decisions:
* An expense record is a JSON object with up to five fields. Python code
  accesses fields with `dict.get`, so each field is an `Option` here; a
  `none` field models a missing key.
* Monetary amounts are modelled as rationals (`ℚ`).  Python's
  `round(x, 2)` is modelled by `round2` (round half away from zero is
  approximated by round-half-up on nonnegative inputs; no claim in this
  development depends on the behaviour at exact ties).
* The backing file is modelled by `FileContent`: absent, unparseable
  text (`json.load` raises `JSONDecodeError`), or a parsed JSON
  document.  `json.dump` followed by `json.load` is modelled as the
  identity on JSON documents.
* Nondeterministic inputs of `make_expense` (`uuid.uuid4()` and
  `datetime.now()`) are passed as explicit parameters `newId` and `now`.
* Python `str.strip()` is modelled by `pyStrip` (drop whitespace from
  both ends) and `str.lower()` by `pyLower` (per-character lowercasing);
  both agree with Python on the ASCII inputs that matter here.
-/

/-- Python `str.strip()`: the string with whitespace removed from both
ends. -/
def pyStrip (s : String) : String :=
  ⟨((s.data.dropWhile Char.isWhitespace).reverse.dropWhile Char.isWhitespace).reverse⟩

/-- Python `str.lower()`: every character lowercased. -/
def pyLower (s : String) : String := ⟨s.data.map Char.toLower⟩

/-- A JSON value, as produced by Python's `json` module. -/
inductive Json where
  | null
  | bool (b : Bool)
  | num (q : ℚ)
  | str (s : String)
  | arr (items : List Json)
  | obj (fields : List (String × Json))

/-- An expense record: a dict with up to five keys.  A `none` field models
a missing key (fields are read with `dict.get` throughout the source). -/
structure Expense where
  id : Option String
  amount : Option ℚ
  category : Option String
  note : Option String
  date : Option String
deriving DecidableEq

/-- The state of the backing file `expenses.json`: absent, present but not
parseable as JSON, or present with parsed document `doc`. -/
inductive FileContent where
  | absent
  | malformed
  | parsed (doc : Json)

/-- Result of `load_expenses`: the returned list (of raw JSON items, as the
Python function returns the parsed list unvalidated) together with whether
the corruption warning was printed. -/
structure LoadResult where
  records : List Json
  warned : Bool

/-- `load_expenses` (lines 10–21): missing file gives `[]`; a parse error
prints the warning and gives `[]`; a parsed document that is not a list
gives `[]` (without any warning); a parsed list is returned as is. -/
def load_expenses : FileContent → LoadResult
  | .absent => ⟨[], false⟩
  | .malformed => ⟨[], true⟩
  | .parsed (.arr items) => ⟨items, false⟩
  | .parsed _ => ⟨[], false⟩

/-- Key lookup in a JSON object, mirroring Python dict lookup (keys are
unique in dicts; the first match is returned). -/
def getKey (fields : List (String × Json)) (k : String) : Option Json :=
  match fields with
  | [] => none
  | (k', v) :: rest => if k' = k then some v else getKey rest k

/-- Helper for serialization: a present field becomes one key of the
object, a missing field contributes no key. -/
def optEntry (key : String) : Option Json → List (String × Json)
  | none => []
  | some j => [(key, j)]

/-- `json.dump` of one expense dict: the object holding exactly the
present fields of the record. -/
def encodeExpense (e : Expense) : Json :=
  .obj (optEntry "id" (e.id.map .str) ++
        optEntry "amount" (e.amount.map .num) ++
        optEntry "category" (e.category.map .str) ++
        optEntry "note" (e.note.map .str) ++
        optEntry "date" (e.date.map .str))

/-- Reads an `Option Json` back as an optional string field. -/
def asStrOpt : Option Json → Option (Option String)
  | none => some none
  | some (.str s) => some (some s)
  | some _ => none

/-- Reads an `Option Json` back as an optional numeric field. -/
def asNumOpt : Option Json → Option (Option ℚ)
  | none => some none
  | some (.num q) => some (some q)
  | some _ => none

/-- The record view of a loaded JSON item: the five fields read back the
way the Python code reads them with `dict.get` (a missing key is a `none`
field).  Returns `none` for an item that is not a record object. -/
def decodeExpense : Json → Option Expense
  | .obj fields => do
      let i ← asStrOpt (getKey fields "id")
      let a ← asNumOpt (getKey fields "amount")
      let c ← asStrOpt (getKey fields "category")
      let n ← asStrOpt (getKey fields "note")
      let d ← asStrOpt (getKey fields "date")
      pure ⟨i, a, c, n, d⟩
  | _ => none

/-- `save_expenses` (lines 24–29): serializes the full list and overwrites
the backing file. -/
def save_expenses (expenses : List Expense) : FileContent :=
  .parsed (.arr (expenses.map encodeExpense))

/-- Python's `round(q, 2)` on rationals: round `q * 100` to an integer
(half up) and divide back by `100`. -/
def round2 (q : ℚ) : ℚ := (⌊q * 100 + 1 / 2⌋ : ℚ) / 100

/-- A rational with at most two fractional decimal digits. -/
def TwoDigit (q : ℚ) : Prop := ∃ z : ℤ, q * 100 = (z : ℚ)

/-- `make_expense` (lines 32–39).  `newId` stands for `str(uuid.uuid4())`
and `now` for `datetime.now().isoformat(timespec="seconds")`; the date is
`date_iso or now`, so an empty-string date also falls back to `now`
(Python `or` is falsy on `""`). -/
def make_expense (newId now : String) (amount : ℚ) (category : String)
    (note : String) (date_iso : Option String) : Expense :=
  { id := some newId
    amount := some (round2 amount)
    category := some (pyStrip category)
    note := some (pyStrip note)
    date := some (match date_iso with
      | some d => if d = "" then now else d
      | none => now) }

/-- Line 51 of `add_expense_interactive`: the category typed by the user is
stripped, and an empty result falls back to `"Uncategorized"`. -/
def default_category (raw : String) : String :=
  if pyStrip raw = "" then "Uncategorized" else pyStrip raw

/-- The record built by `add_expense_interactive` (lines 42–72) from the raw
category and note inputs; the date-parsing outcome is passed as `date_iso`
(`none` models both the empty date input and an unparseable one). -/
def add_expense (newId now : String) (amount : ℚ)
    (rawCategory rawNote : String) (date_iso : Option String) : Expense :=
  make_expense newId now amount (default_category rawCategory) (pyStrip rawNote) date_iso

/-- `e.get("amount", 0)` as a number (lines 96 and 103). -/
def getAmount (e : Expense) : ℚ := e.amount.getD 0

/-- `e.get("category", "Uncategorized")` (line 102). -/
def catKey (e : Expense) : String := e.category.getD "Uncategorized"

/-- `x.get("date", "")`, the sort key of lines 90 and 141. -/
def dateKey (e : Expense) : String := e.date.getD ""

/-- `get_total_spending` (lines 95–96): `sum(float(e.get("amount", 0)) ...)`. -/
def get_total_spending (expenses : List Expense) : ℚ :=
  expenses.foldl (fun acc e => acc + getAmount e) 0

/-- One loop iteration of `spending_by_category`:
`summary[cat] = summary.get(cat, 0.0) + amount` on an insertion-ordered
dict represented as an association list with unique keys. -/
def addToSummary (s : List (String × ℚ)) (cat : String) (amt : ℚ) :
    List (String × ℚ) :=
  match s with
  | [] => [(cat, amt)]
  | (k, v) :: rest =>
      if k = cat then (k, v + amt) :: rest else (k, v) :: addToSummary rest cat amt

/-- The summary dict after the loop of `spending_by_category` (lines 100–103). -/
def rawSummary (expenses : List Expense) : List (String × ℚ) :=
  expenses.foldl (fun s e => addToSummary s (catKey e) (getAmount e)) []

/-- `spending_by_category` (lines 99–104): the loop followed by
`{k: round(v, 2) for k, v in summary.items()}`. -/
def spending_by_category (expenses : List Expense) : List (String × ℚ) :=
  (rawSummary expenses).map (fun kv => (kv.1, round2 kv.2))

/-- Result of `delete_expense`: the list left in memory, whether
`save_expenses` was called, and the message printed. -/
structure DeleteResult where
  records : List Expense
  saved : Bool
  message : String
deriving DecidableEq

/-- `delete_expense` (lines 119–127): keep the records whose `id` differs
from the typed id; save and report success only when the length dropped. -/
def delete_expense (expenses : List Expense) (eid : String) : DeleteResult :=
  let remaining := expenses.filter (fun e => !(e.id == some eid))
  if remaining.length < expenses.length then
    ⟨remaining, true, "Expense deleted."⟩
  else
    ⟨remaining, false, "ID not found. No changes made."⟩

/-- Python `needle in s.lower()` for an already lowercased needle:
substring containment after lowercasing the field. -/
def lowerContains (needleLower : String) (s : String) : Bool :=
  decide (needleLower.data <:+: (pyLower s).data)

/-- The filter condition of `search_expenses` (lines 133–137), for a
keyword that has already been stripped and lowercased. -/
def matchesKeyword (kwLower : String) (e : Expense) : Bool :=
  lowerContains kwLower (e.category.getD "") ||
  lowerContains kwLower (e.note.getD "") ||
  lowerContains kwLower (e.date.getD "")

/-- The comparison passed to `sorted(key=..., reverse=True)` on the date
key: `a` may come before `b` when `a`'s date is the larger one. -/
def dateDescBefore (a b : Expense) : Bool := decide (dateKey b ≤ dateKey a)

/-- `search_expenses` (lines 130–142): the typed keyword is stripped and
lowercased (line 131), the records are filtered by the three-field
substring test, and the hits are sorted by date descending for display. -/
def search_expenses (expenses : List Expense) (rawKeyword : String) :
    List Expense :=
  (expenses.filter (matchesKeyword (pyLower (pyStrip rawKeyword)))).mergeSort dateDescBefore

/-- The match predicate in the words of the spec: the keyword itself (no
trimming) must occur as a case-insensitive substring of the category, the
note, or the date. -/
def claimMatches (keyword : String) (e : Expense) : Bool :=
  lowerContains (pyLower keyword) (e.category.getD "") ||
  lowerContains (pyLower keyword) (e.note.getD "") ||
  lowerContains (pyLower keyword) (e.date.getD "")

/-- A record with the `dict.get` defaults filled in: missing amount
becomes `0`, missing category becomes `"Uncategorized"`. -/
def fillDefaults (e : Expense) : Expense :=
  ⟨e.id, some (getAmount e), some (catKey e), e.note, e.date⟩

/-! ## Helper lemmas -/

theorem foldl_add_getAmount (l : List Expense) (a : ℚ) :
    l.foldl (fun acc e => acc + getAmount e) a = a + (l.map getAmount).sum := by
  induction l generalizing a with
  | nil => simp
  | cons x xs ih => simp [ih, add_assoc]

/-- `get_total_spending` is the sum of the (defaulted) amounts. -/
theorem total_eq_sum (l : List Expense) :
    get_total_spending l = (l.map getAmount).sum := by
  simpa using foldl_add_getAmount l 0

theorem round2_eq_self_of_twoDigit {q : ℚ} (h : TwoDigit q) : round2 q = q := by
  obtain ⟨z, hz⟩ := h
  unfold round2
  rw [hz, show ((z : ℚ) + 1 / 2) = (z : ℚ) + (1 / 2 : ℚ) by ring, Int.floor_int_add,
    show ⌊(1 / 2 : ℚ)⌋ = 0 by norm_num]
  push_cast
  rw [add_zero, ← hz]
  ring

theorem twoDigit_round2 (q : ℚ) : TwoDigit (round2 q) := by
  refine ⟨⌊q * 100 + 1 / 2⌋, ?_⟩
  unfold round2
  field_simp

theorem round2_nonneg {q : ℚ} (h : 0 ≤ q) : 0 ≤ round2 q := by
  unfold round2
  apply div_nonneg _ (by norm_num)
  have : (0 : ℤ) ≤ ⌊q * 100 + 1 / 2⌋ := by
    rw [Int.le_floor]
    push_cast
    nlinarith
  exact_mod_cast this

theorem TwoDigit.add {a b : ℚ} (ha : TwoDigit a) (hb : TwoDigit b) :
    TwoDigit (a + b) := by
  obtain ⟨x, hx⟩ := ha
  obtain ⟨y, hy⟩ := hb
  exact ⟨x + y, by push_cast [← hx, ← hy]; ring⟩

theorem twoDigit_zero : TwoDigit 0 := ⟨0, by norm_num⟩

/-! ## C3: load on absent / malformed / non-list content -/

/-- C3 (amended): an absent file loads as the empty list without a
warning; unparseable content loads as the empty list with the corruption
warning; a parsed document that is a list is returned as is; a parsed
document that is not a list loads as the empty list but without any
warning. -/
theorem load_expenses_cases :
    load_expenses .absent = ⟨[], false⟩ ∧
    load_expenses .malformed = ⟨[], true⟩ ∧
    (∀ items : List Json, load_expenses (.parsed (.arr items)) = ⟨items, false⟩) ∧
    (∀ doc : Json, (∀ items : List Json, doc ≠ .arr items) →
      load_expenses (.parsed doc) = ⟨[], false⟩) := by
  refine ⟨rfl, rfl, fun items => rfl, fun doc h => ?_⟩
  cases doc with
  | arr items => exact absurd rfl (h items)
  | null => rfl
  | bool b => rfl
  | num q => rfl
  | str s => rfl
  | obj fields => rfl

theorem load_expenses_cases_witness :
    (∀ items : List Json, Json.str "not a list" ≠ Json.arr items) ∧
    load_expenses (.parsed (.str "not a list")) = ⟨[], false⟩ :=
  ⟨fun _ h => Json.noConfusion h,
   load_expenses_cases.2.2.2 (.str "not a list") (fun _ h => Json.noConfusion h)⟩

/-- C3, counterexample to the claim as stated: a file whose content parses
to the JSON string `"not a list"` (not a sequence) loads as the empty list
but does **not** emit the warning, while the claim says every malformed
content logs a warning. -/
theorem load_nonlist_no_warning :
    (load_expenses (.parsed (.str "not a list"))).warned = false ∧
    (load_expenses (.parsed (.str "not a list"))).records = [] :=
  ⟨rfl, rfl⟩

/-! ## C8: total is the sum of the amounts -/

/-- C8: `get_total_spending` equals the sum of the `amount` fields (with
the `dict.get` default `0` for a missing amount), and the empty list
totals `0`. -/
theorem total_spec :
    (∀ l : List Expense, get_total_spending l = (l.map getAmount).sum) ∧
    get_total_spending [] = 0 :=
  ⟨total_eq_sum, rfl⟩

/-! ## C10: aggregation on records with missing fields -/

/-- C10: the aggregations treat a record exactly as if a missing amount
were `0` and a missing category were `"Uncategorized"` (`fillDefaults`
fills both `dict.get` defaults in); in particular `getAmount` of an
amountless record is `0` and `catKey` of a categoryless record is
`"Uncategorized"`.  Both operations are total Lean functions, so neither
fails on such records. -/
theorem aggregation_total_on_missing_fields (l : List Expense) :
    get_total_spending (l.map fillDefaults) = get_total_spending l ∧
    spending_by_category (l.map fillDefaults) = spending_by_category l ∧
    (∀ e : Expense, e.amount = none → getAmount e = 0) ∧
    (∀ e : Expense, e.category = none → catKey e = "Uncategorized") := by
  refine ⟨?_, ?_, ?_, ?_⟩
  · unfold get_total_spending
    rw [List.foldl_map]
    rfl
  · unfold spending_by_category rawSummary
    rw [List.foldl_map]
    rfl
  · intro e h
    simp [getAmount, h]
  · intro e h
    simp [catKey, h]

theorem aggregation_total_on_missing_fields_witness :
    ((⟨some "x", none, none, none, none⟩ : Expense).amount = none) ∧
    getAmount ⟨some "x", none, none, none, none⟩ = 0 ∧
    catKey ⟨some "x", none, none, none, none⟩ = "Uncategorized" ∧
    get_total_spending ([⟨some "x", none, none, none, none⟩].map fillDefaults) =
      get_total_spending [⟨some "x", none, none, none, none⟩] :=
  ⟨rfl,
   (aggregation_total_on_missing_fields []).2.2.1 ⟨some "x", none, none, none, none⟩ rfl,
   (aggregation_total_on_missing_fields []).2.2.2 ⟨some "x", none, none, none, none⟩ rfl,
   (aggregation_total_on_missing_fields [⟨some "x", none, none, none, none⟩]).1⟩

/-! ## C6: the "Uncategorized" default -/

/-- C6, counterexample to the claim as stated: the factory `make_expense`
itself only strips the category; called directly with the blank category
`" "` it produces the category `""`, not `"Uncategorized"`. -/
theorem make_expense_blank_category_not_defaulted :
    (make_expense "id1" "2024-01-01T00:00:00" 1 " " "" none).category ≠
      some "Uncategorized" := by
  decide

/-- C6 (amended): the default is applied by the interactive add flow
(line 51) before the factory is called: for every category input that is
blank after stripping, the record built by `add_expense` carries the
category `"Uncategorized"`. -/
theorem add_expense_blank_category_defaults (newId now : String) (amount : ℚ)
    (rawCategory rawNote : String) (date_iso : Option String)
    (h : pyStrip rawCategory = "") :
    (add_expense newId now amount rawCategory rawNote date_iso).category =
      some "Uncategorized" := by
  simp only [add_expense, make_expense, default_category, h, if_pos]
  decide

theorem add_expense_blank_category_defaults_witness :
    pyStrip "   " = "" ∧
    (add_expense "id1" "2024-01-01T00:00:00" 1 "   " "note" none).category =
      some "Uncategorized" :=
  ⟨by decide,
   add_expense_blank_category_defaults "id1" "2024-01-01T00:00:00" 1 "   " "note" none
     (by decide)⟩

/-! ## C7: the amount at construction -/

/-- C7, counterexample to the claim as stated: `make_expense` performs no
sign check, so the negative input `-5` is accepted and stored as the
negative amount `-5`; the constructed amount is not non-negative. -/
theorem make_expense_negative_amount :
    (make_expense "id1" "2024-01-01T00:00:00" (-5) "Food" "" none).amount =
      some (-5) ∧ ((-5 : ℚ) < 0) := by
  constructor
  · show some (round2 (-5)) = some (-5)
    norm_num [round2]
  · norm_num

/-- C7 (amended): the amount of a constructed record is the input rounded
to two fractional digits at construction time; it is non-negative whenever
the input is non-negative, but no validation rejects negative inputs. -/
theorem make_expense_amount_rounded (newId now : String) (amount : ℚ)
    (category note : String) (date_iso : Option String) :
    (make_expense newId now amount category note date_iso).amount =
      some (round2 amount) ∧
    TwoDigit (round2 amount) ∧
    (0 ≤ amount → 0 ≤ round2 amount) :=
  ⟨rfl, twoDigit_round2 amount, fun h => round2_nonneg h⟩

theorem make_expense_amount_rounded_witness :
    (0 : ℚ) ≤ 5 ∧ 0 ≤ round2 5 ∧
    (make_expense "id1" "2024-01-01T00:00:00" 5 "Food" "" none).amount =
      some (round2 5) :=
  ⟨by norm_num,
   (make_expense_amount_rounded "id1" "2024-01-01T00:00:00" 5 "Food" "" none).2.2
     (by norm_num),
   (make_expense_amount_rounded "id1" "2024-01-01T00:00:00" 5 "Food" "" none).1⟩

/-! ## C1 and C9: delete -/

theorem length_filter_not_add {α : Type} (p : α → Bool) (l : List α) :
    (l.filter (fun a => !p a)).length + l.countP p = l.length := by
  induction l with
  | nil => rfl
  | cons x xs ih =>
      cases hx : p x <;>
        simp [List.filter_cons, List.countP_cons, hx, ← ih] <;> omega

theorem countP_eq_one_of_nodup_map {α β : Type} [DecidableEq β] (f : α → β) :
    ∀ (l : List α) (b : β), (l.map f).Nodup → (∃ e ∈ l, f e = b) →
      l.countP (fun x => decide (f x = b)) = 1
  | [], _, _, hex => by obtain ⟨e, he, _⟩ := hex; cases he
  | x :: xs, b, hnd, hex => by
      rw [List.map_cons, List.nodup_cons] at hnd
      obtain ⟨hx, hxs⟩ := hnd
      rw [List.countP_cons]
      by_cases hfx : f x = b
      · have hz : xs.countP (fun y => decide (f y = b)) = 0 := by
          rw [List.countP_eq_zero]
          intro a ha
          simp only [decide_eq_true_eq]
          intro hab
          exact hx (by rw [hfx, ← hab]; exact List.mem_map_of_mem f ha)
        simp [hz, hfx]
      · obtain ⟨e, he, hfe⟩ := hex
        rcases List.mem_cons.mp he with rfl | he'
        · exact absurd hfe hfx
        · have h1 := countP_eq_one_of_nodup_map f xs b hxs ⟨e, he', hfe⟩
          simp [h1, hfx]

theorem countP_id_eq_one (l : List Expense) (eid : String)
    (huniq : (l.map Expense.id).Nodup) (hex : ∃ e ∈ l, e.id = some eid) :
    l.countP (fun e => e.id == some eid) = 1 := by
  have h := countP_eq_one_of_nodup_map Expense.id l (some eid) huniq hex
  rw [← h]
  apply List.countP_congr
  intro x _
  simp

theorem delete_expense_deleted (l : List Expense) (eid : String)
    (hlt : (l.filter (fun e => !(e.id == some eid))).length < l.length) :
    delete_expense l eid =
      ⟨l.filter (fun e => !(e.id == some eid)), true, "Expense deleted."⟩ := by
  unfold delete_expense
  dsimp only
  rw [if_pos hlt]

/-- C1: with unique ids, deleting an existing id removes exactly the
record bearing that id (count drops by exactly one, membership is
preserved otherwise) and saves; deleting an id present in no record
leaves the list unchanged, performs no save, and prints the not-found
message. -/
theorem delete_by_id_spec (l : List Expense) (eid : String)
    (huniq : (l.map Expense.id).Nodup) :
    ((∃ e ∈ l, e.id = some eid) →
      (delete_expense l eid).records.length + 1 = l.length ∧
      (delete_expense l eid).saved = true ∧
      (∀ e : Expense, e ∈ (delete_expense l eid).records ↔
        e ∈ l ∧ e.id ≠ some eid)) ∧
    ((∀ e ∈ l, e.id ≠ some eid) →
      delete_expense l eid = ⟨l, false, "ID not found. No changes made."⟩) := by
  constructor
  · intro hex
    have hc := countP_id_eq_one l eid huniq hex
    have hsum := length_filter_not_add (fun e => e.id == some eid) l
    have hlen : (l.filter (fun e => !(e.id == some eid))).length + 1 = l.length := by
      omega
    have hlt : (l.filter (fun e => !(e.id == some eid))).length < l.length := by
      omega
    rw [delete_expense_deleted l eid hlt]
    refine ⟨hlen, rfl, ?_⟩
    intro e
    simp [List.mem_filter]
  · intro hnone
    have hfil : l.filter (fun e => !(e.id == some eid)) = l := by
      rw [List.filter_eq_self]
      intro a ha
      simp only [Bool.not_eq_true', beq_eq_false_iff_ne, ne_eq]
      exact hnone a ha
    unfold delete_expense
    dsimp only
    rw [hfil, if_neg (lt_irrefl _)]

theorem delete_by_id_spec_witness :
    (([⟨some "a", some 1, some "Food", some "", some "2024-01-01T00:00:00"⟩,
       ⟨some "b", some 2, some "Bills", some "", some "2024-01-02T00:00:00"⟩] :
        List Expense).map Expense.id).Nodup ∧
    (∃ e ∈ ([⟨some "a", some 1, some "Food", some "", some "2024-01-01T00:00:00"⟩,
             ⟨some "b", some 2, some "Bills", some "", some "2024-01-02T00:00:00"⟩] :
        List Expense), e.id = some "a") ∧
    (delete_expense
        [⟨some "a", some 1, some "Food", some "", some "2024-01-01T00:00:00"⟩,
         ⟨some "b", some 2, some "Bills", some "", some "2024-01-02T00:00:00"⟩]
        "a").records.length + 1 =
      ([⟨some "a", some 1, some "Food", some "", some "2024-01-01T00:00:00"⟩,
        ⟨some "b", some 2, some "Bills", some "", some "2024-01-02T00:00:00"⟩] :
        List Expense).length ∧
    (delete_expense
        [⟨some "a", some 1, some "Food", some "", some "2024-01-01T00:00:00"⟩,
         ⟨some "b", some 2, some "Bills", some "", some "2024-01-02T00:00:00"⟩]
        "c") =
      ⟨[⟨some "a", some 1, some "Food", some "", some "2024-01-01T00:00:00"⟩,
        ⟨some "b", some 2, some "Bills", some "", some "2024-01-02T00:00:00"⟩],
       false, "ID not found. No changes made."⟩ :=
  ⟨by decide, by decide,
   ((delete_by_id_spec
       [⟨some "a", some 1, some "Food", some "", some "2024-01-01T00:00:00"⟩,
        ⟨some "b", some 2, some "Bills", some "", some "2024-01-02T00:00:00"⟩]
       "a" (by decide)).1 (by decide)).1,
   (delete_by_id_spec
       [⟨some "a", some 1, some "Food", some "", some "2024-01-01T00:00:00"⟩,
        ⟨some "b", some 2, some "Bills", some "", some "2024-01-02T00:00:00"⟩]
       "c" (by decide)).2 (by decide)⟩

/-- C9: `delete_expense` filters out every record whose id equals the
typed id, so with `k ≥ 2` duplicates of that id the count drops by `k`,
no record with that id survives, and the shrunken list is saved. -/
theorem delete_removes_all_duplicates (l : List Expense) (eid : String)
    (hdup : 2 ≤ l.countP (fun e => e.id == some eid)) :
    (delete_expense l eid).records.length +
      l.countP (fun e => e.id == some eid) = l.length ∧
    (∀ e ∈ (delete_expense l eid).records, e.id ≠ some eid) ∧
    (delete_expense l eid).saved = true := by
  have hsum := length_filter_not_add (fun e => e.id == some eid) l
  have hlt : (l.filter (fun e => !(e.id == some eid))).length < l.length := by
    omega
  rw [delete_expense_deleted l eid hlt]
  refine ⟨hsum, ?_, rfl⟩
  intro e he
  have := (List.mem_filter.mp he).2
  simpa using this

theorem delete_removes_all_duplicates_witness :
    2 ≤ ([⟨some "a", some 1, some "Food", some "", some "2024-01-01T00:00:00"⟩,
          ⟨some "a", some 2, some "Bills", some "", some "2024-01-02T00:00:00"⟩,
          ⟨some "b", some 3, some "Food", some "", some "2024-01-03T00:00:00"⟩] :
        List Expense).countP (fun e => e.id == some "a") ∧
    (delete_expense
        [⟨some "a", some 1, some "Food", some "", some "2024-01-01T00:00:00"⟩,
         ⟨some "a", some 2, some "Bills", some "", some "2024-01-02T00:00:00"⟩,
         ⟨some "b", some 3, some "Food", some "", some "2024-01-03T00:00:00"⟩]
        "a").records.length +
      ([⟨some "a", some 1, some "Food", some "", some "2024-01-01T00:00:00"⟩,
        ⟨some "a", some 2, some "Bills", some "", some "2024-01-02T00:00:00"⟩,
        ⟨some "b", some 3, some "Food", some "", some "2024-01-03T00:00:00"⟩] :
        List Expense).countP (fun e => e.id == some "a") =
      ([⟨some "a", some 1, some "Food", some "", some "2024-01-01T00:00:00"⟩,
        ⟨some "a", some 2, some "Bills", some "", some "2024-01-02T00:00:00"⟩,
        ⟨some "b", some 3, some "Food", some "", some "2024-01-03T00:00:00"⟩] :
        List Expense).length :=
  ⟨by decide,
   (delete_removes_all_duplicates
       [⟨some "a", some 1, some "Food", some "", some "2024-01-01T00:00:00"⟩,
        ⟨some "a", some 2, some "Bills", some "", some "2024-01-02T00:00:00"⟩,
        ⟨some "b", some 3, some "Food", some "", some "2024-01-03T00:00:00"⟩]
       "a" (by decide)).1⟩

/-! ## C4: the category summary versus the total -/

theorem sum_snd_addToSummary (s : List (String × ℚ)) (k : String) (a : ℚ) :
    ((addToSummary s k a).map Prod.snd).sum = (s.map Prod.snd).sum + a := by
  induction s with
  | nil => simp [addToSummary]
  | cons kv rest ih =>
      obtain ⟨k', v⟩ := kv
      by_cases h : k' = k <;> simp [addToSummary, h, ih] <;> ring

theorem sum_snd_foldl (l : List Expense) :
    ∀ s : List (String × ℚ),
      ((l.foldl (fun s e => addToSummary s (catKey e) (getAmount e)) s).map
          Prod.snd).sum =
        (s.map Prod.snd).sum + (l.map getAmount).sum := by
  induction l with
  | nil => intro s; simp
  | cons x xs ih =>
      intro s
      simp only [List.foldl_cons, List.map_cons, List.sum_cons]
      rw [ih, sum_snd_addToSummary]
      ring

theorem twoDigit_addToSummary (k : String) (a : ℚ) (ha : TwoDigit a) :
    ∀ s : List (String × ℚ), (∀ kv ∈ s, TwoDigit kv.2) →
      ∀ kv ∈ addToSummary s k a, TwoDigit kv.2
  | [], _, kv, hkv => by
      simp only [addToSummary, List.mem_singleton] at hkv
      rw [hkv]; exact ha
  | (k', v) :: rest, hs, kv, hkv => by
      by_cases h : k' = k
      · rw [show addToSummary ((k', v) :: rest) k a = (k', v + a) :: rest from by
            simp [addToSummary, h]] at hkv
        rcases List.mem_cons.mp hkv with rfl | hmem
        · exact TwoDigit.add (hs (k', v) (by simp)) ha
        · exact hs kv (List.mem_cons_of_mem _ hmem)
      · rw [show addToSummary ((k', v) :: rest) k a =
              (k', v) :: addToSummary rest k a from by simp [addToSummary, h]] at hkv
        rcases List.mem_cons.mp hkv with rfl | hmem
        · exact hs (k', v) (by simp)
        · exact twoDigit_addToSummary k a ha rest
            (fun kv' h' => hs kv' (List.mem_cons_of_mem _ h')) kv hmem

theorem twoDigit_foldl :
    ∀ (l : List Expense) (s : List (String × ℚ)),
      (∀ e ∈ l, TwoDigit (getAmount e)) → (∀ kv ∈ s, TwoDigit kv.2) →
      ∀ kv ∈ l.foldl (fun s e => addToSummary s (catKey e) (getAmount e)) s,
        TwoDigit kv.2
  | [], _, _, hs => hs
  | x :: xs, s, hl, hs => by
      simp only [List.foldl_cons]
      exact twoDigit_foldl xs _ (fun e he => hl e (List.mem_cons_of_mem _ he))
        (twoDigit_addToSummary (catKey x) (getAmount x) (hl x (by simp)) s hs)

/-- C4 (amended): for a record list all of whose (defaulted) amounts have
at most two fractional digits — which is what the factory ever produces —
the per-category subtotals of `spending_by_category` sum to
`get_total_spending`.  (For arbitrary amounts the per-value rounding of
the summary breaks the partition law; see the counterexample.) -/
theorem byCategory_partitions_total (l : List Expense)
    (h : ∀ e ∈ l, TwoDigit (getAmount e)) :
    ((spending_by_category l).map Prod.snd).sum = get_total_spending l := by
  have hfix : ∀ kv ∈ rawSummary l, round2 kv.2 = kv.2 := fun kv hkv =>
    round2_eq_self_of_twoDigit (twoDigit_foldl l [] h (by simp) kv hkv)
  unfold spending_by_category
  rw [List.map_map,
    show ((rawSummary l).map (Prod.snd ∘ fun kv => (kv.1, round2 kv.2))) =
        (rawSummary l).map Prod.snd from List.map_congr_left hfix]
  calc ((rawSummary l).map Prod.snd).sum
      = (([] : List (String × ℚ)).map Prod.snd).sum + (l.map getAmount).sum :=
        sum_snd_foldl l []
    _ = (l.map getAmount).sum := by simp
    _ = get_total_spending l := (total_eq_sum l).symm

/-- C4, counterexample to the claim as stated: for the single record with
amount `0.007` the summary value is rounded to `0.01`, while the total is
the unrounded `0.007`, so the subtotals do not sum to the total for
arbitrary record lists. -/
theorem byCategory_rounding_counterexample :
    ((spending_by_category
          [⟨some "a", some (7/1000), some "Food", some "", some ""⟩]).map
        Prod.snd).sum ≠
      get_total_spending
        [⟨some "a", some (7/1000), some "Food", some "", some ""⟩] := by
  simp [spending_by_category, rawSummary, addToSummary, catKey, getAmount,
    get_total_spending]
  norm_num [round2]

theorem byCategory_partitions_total_witness :
    (∀ e ∈ ([⟨some "a", some 5, some "Food", some "", some ""⟩,
             ⟨some "b", some 3, some "Bills", some "", some ""⟩] :
        List Expense), TwoDigit (getAmount e)) ∧
    ((spending_by_category
          [⟨some "a", some 5, some "Food", some "", some ""⟩,
           ⟨some "b", some 3, some "Bills", some "", some ""⟩]).map
        Prod.snd).sum =
      get_total_spending
        [⟨some "a", some 5, some "Food", some "", some ""⟩,
         ⟨some "b", some 3, some "Bills", some "", some ""⟩] := by
  have h : ∀ e ∈ ([⟨some "a", some 5, some "Food", some "", some ""⟩,
                   ⟨some "b", some 3, some "Bills", some "", some ""⟩] :
      List Expense), TwoDigit (getAmount e) := by
    intro e he
    simp only [List.mem_cons, List.not_mem_nil, or_false] at he
    rcases he with rfl | rfl
    · exact ⟨500, by norm_num [getAmount]⟩
    · exact ⟨300, by norm_num [getAmount]⟩
  exact ⟨h, byCategory_partitions_total _ h⟩

/-! ## C2: save/load round-trip -/

theorem decode_encode (e : Expense) : decodeExpense (encodeExpense e) = some e := by
  obtain ⟨i, a, c, n, d⟩ := e
  cases i <;> cases a <;> cases c <;> cases n <;> cases d <;> rfl

/-- C2: appending a freshly created record and saving, then loading,
reproduces every record exactly (and without a warning): each loaded item
decodes back to the original record, the created one included; its amount
is the input rounded to two digits, so the round-trip is the identity on
the already-rounded stored amounts. -/
theorem save_load_roundtrip (l : List Expense) (newId now : String)
    (amount : ℚ) (category note : String) (date_iso : Option String) :
    (load_expenses (save_expenses
          (l ++ [make_expense newId now amount category note date_iso]))).records.map
        decodeExpense =
      (l ++ [make_expense newId now amount category note date_iso]).map some ∧
    (load_expenses (save_expenses
          (l ++ [make_expense newId now amount category note date_iso]))).warned
        = false ∧
    (make_expense newId now amount category note date_iso).amount =
      some (round2 amount) := by
  refine ⟨?_, rfl, rfl⟩
  show ((l ++ [make_expense newId now amount category note date_iso]).map
      encodeExpense).map decodeExpense = _
  rw [List.map_map]
  exact List.map_congr_left (fun e _ => decode_encode e)

/-! ## C5: search -/

theorem dateDescBefore_trans (a b c : Expense) :
    dateDescBefore a b → dateDescBefore b c → dateDescBefore a c := by
  simp only [dateDescBefore, decide_eq_true_eq]
  exact fun hab hbc => le_trans hbc hab

theorem dateDescBefore_total (a b : Expense) :
    dateDescBefore a b || dateDescBefore b a := by
  rcases le_total (dateKey a) (dateKey b) with h | h <;>
    simp [dateDescBefore, h]

/-- C5 (amended): `search_expenses` first strips and lowercases the typed
keyword (line 131), so it returns exactly the records one of whose three
fields contains the **stripped** keyword as a case-insensitive substring,
sorted by date descending; a keyword that is blank after stripping
matches every record, so the whole list is returned sorted by date
descending.  (For a keyword with surrounding whitespace this differs from
matching the keyword verbatim; see the counterexample.) -/
theorem search_spec (l : List Expense) (kw : String) :
    (search_expenses l kw).Perm (l.filter (claimMatches (pyStrip kw))) ∧
    (search_expenses l kw).Pairwise (fun a b => dateKey b ≤ dateKey a) ∧
    (pyStrip kw = "" → (search_expenses l kw).Perm l) := by
  refine ⟨?_, ?_, ?_⟩
  · exact List.mergeSort_perm _ _
  · have h := List.sorted_mergeSort dateDescBefore_trans dateDescBefore_total
      (l.filter (matchesKeyword (pyLower (pyStrip kw))))
    exact h.imp (fun hab => by simpa [dateDescBefore] using hab)
  · intro hkw
    unfold search_expenses
    rw [hkw]
    rw [show l.filter (matchesKeyword (pyLower "")) = l from by
      rw [List.filter_eq_self]
      intro a _
      simp [matchesKeyword, lowerContains, pyLower]]
    exact List.mergeSort_perm _ _

/-- C5, counterexample to the claim as stated: with the keyword `" a"`
(leading space) the search still returns the record with category `"ab"`,
because the code strips the keyword before matching, although none of the
record's fields contains `" a"` as a (case-insensitive) substring. -/
theorem search_untrimmed_keyword_counterexample :
    search_expenses [⟨some "i", some 1, some "ab", some "", some ""⟩] " a" =
      [⟨some "i", some 1, some "ab", some "", some ""⟩] ∧
    claimMatches " a" ⟨some "i", some 1, some "ab", some "", some ""⟩ = false := by
  constructor
  · show (List.filter (matchesKeyword (pyLower (pyStrip " a")))
        [⟨some "i", some 1, some "ab", some "", some ""⟩]).mergeSort
          dateDescBefore = _
    rw [show List.filter (matchesKeyword (pyLower (pyStrip " a")))
          [⟨some "i", some 1, some "ab", some "", some ""⟩] =
        [⟨some "i", some 1, some "ab", some "", some ""⟩] from by decide]
    simp
  · decide

theorem search_spec_witness :
    pyStrip "" = "" ∧
    (search_expenses
        [⟨some "i", some 1, some "Food", some "n", some "2024-01-01T00:00:00"⟩]
        "").Perm
      [⟨some "i", some 1, some "Food", some "n", some "2024-01-01T00:00:00"⟩] :=
  ⟨rfl,
   (search_spec
       [⟨some "i", some 1, some "Food", some "n", some "2024-01-01T00:00:00"⟩]
       "").2.2 rfl⟩
